import Mathlib

set_option maxRecDepth 16384

/-!
Verification of the MyISO on-disk construction engine against its
specification.  The definitions below are shallow embeddings of the C++
source: pure functions mirror the arithmetic and string logic directly,
and the byte-level effects of the burner / formatter pipelines are
modelled as updates to a device byte map `Nat → Nat` driven by explicit
syscall schedules (read/write/sendfile return values).  Machine integers
are `Nat` with explicit wrap (`% 2^32`, `% 2^64`) where the C++ uses
fixed-width arithmetic.
-/

/-- A block device modelled as a total byte map from offsets to byte values. -/
def ovw (dev : Nat → Nat) (pos : Nat) (data : List Nat) : Nat → Nat :=
  fun i => if pos ≤ i ∧ i < pos + data.length then data.getD (i - pos) 0 else dev i

theorem ovw_in (dev : Nat → Nat) (pos : Nat) (data : List Nat) (i : Nat)
    (h1 : pos ≤ i) (h2 : i < pos + data.length) :
    ovw dev pos data i = data.getD (i - pos) 0 := by
  simp [ovw, h1, h2]

theorem ovw_out (dev : Nat → Nat) (pos : Nat) (data : List Nat) (i : Nat)
    (h : ¬ (pos ≤ i ∧ i < pos + data.length)) :
    ovw dev pos data i = dev i := by
  simp [ovw]
  intro h1 h2
  exact absurd ⟨h1, h2⟩ h

/-! ## Image analyser (src/unnamed/part_008, namespace ISOAnalyzer) -/

/-- Embedded MBR partition entry extracted from a hybrid image
(struct PartitionInfo of iso_analyzer.hpp). -/
structure PartitionInfo where
  startLBA : Nat
  sectorCount : Nat
  ptype : Nat
  bootable : Bool
  label : String
  filesystem : String
deriving DecidableEq, Repr

/-- Result of SmartAnalyzer::analyzeISO (struct ISOStructure of iso_analyzer.hpp). -/
structure ISOStructure where
  isHybrid : Bool
  hasElTorito : Bool
  hasUEFI : Bool
  hasLegacyBoot : Bool
  isMultiBoot : Bool
  requiredPartitions : Nat
  isoDataSize : Nat
  bootSectorLocation : Nat
  embeddedPartitions : List PartitionInfo
  bootType : String
  bootFiles : List String
deriving DecidableEq, Repr

/-- enum class BurnStrategy of iso_analyzer.hpp. -/
inductive BurnStrategy where
  | RAW_COPY
  | SMART_EXTRACT
  | HYBRID_PRESERVE
  | MULTIPART
deriving DecidableEq, Repr

/-- ISOAnalyzer::determineBurnStrategy (src/unnamed/part_008, lines 271-281). -/
def determineBurnStrategy (s : ISOStructure) : BurnStrategy :=
  if s.isHybrid && !s.embeddedPartitions.isEmpty then
    BurnStrategy.HYBRID_PRESERVE
  else if s.isMultiBoot || decide (s.embeddedPartitions.length > 1) then
    BurnStrategy.MULTIPART
  else if s.hasUEFI || s.hasElTorito then
    BurnStrategy.SMART_EXTRACT
  else
    BurnStrategy.RAW_COPY

/-- First-matching-row evaluation of a decision table: returns the strategy of
the first row whose condition holds, or the default when no row matches. -/
def firstMatchingRow : List (Bool × BurnStrategy) → BurnStrategy → BurnStrategy
  | [], dflt => dflt
  | (c, st) :: rows, dflt => if c then st else firstMatchingRow rows dflt

/-- The spec's strategy decision table, row conditions written from the spec:
Hybrid ∧ has_embedded_partitions → HybridPreserve;
is_multi_boot ∨ embedded_partitions > 1 → MultiPart;
has_uefi ∨ has_el_torito → SmartExtract; otherwise RawCopy. -/
def strategyDecisionTable (s : ISOStructure) : BurnStrategy :=
  firstMatchingRow
    [ (s.isHybrid && !s.embeddedPartitions.isEmpty, BurnStrategy.HYBRID_PRESERVE),
      (s.isMultiBoot || decide (s.embeddedPartitions.length > 1), BurnStrategy.MULTIPART),
      (s.hasUEFI || s.hasElTorito, BurnStrategy.SMART_EXTRACT) ]
    BurnStrategy.RAW_COPY

/-! ## Substring search (std::string::find) -/

/-- Whether the first list starts with the second (byte-wise). -/
def leadMatch : List Nat → List Nat → Bool
  | _, [] => true
  | [], _ :: _ => false
  | a :: as, b :: bs => a == b && leadMatch as bs

/-- Whether needle occurs as a contiguous run somewhere in hay
(the semantics of std::string::find(...) != npos). -/
def containsSeq (hay needle : List Nat) : Bool :=
  leadMatch hay needle ||
    match hay with
    | [] => false
    | _ :: t => containsSeq t needle

/-- Proposition-level statement that needle occurs contiguously in hay. -/
def OccursIn (hay needle : List Nat) : Prop :=
  ∃ i, i + needle.length ≤ hay.length ∧ needle = (hay.drop i).take needle.length

theorem leadMatch_iff (hay needle : List Nat) :
    leadMatch hay needle = true ↔
      needle.length ≤ hay.length ∧ needle = hay.take needle.length := by
  induction hay generalizing needle with
  | nil =>
    cases needle with
    | nil => simp [leadMatch]
    | cons b bs => simp [leadMatch]
  | cons a as ih =>
    cases needle with
    | nil => simp [leadMatch]
    | cons b bs =>
      simp only [leadMatch, Bool.and_eq_true, beq_iff_eq, ih,
        List.length_cons, List.take_succ_cons]
      constructor
      · rintro ⟨rfl, hlen, htake⟩
        exact ⟨by omega, by rw [← htake]⟩
      · rintro ⟨hlen, heq⟩
        obtain ⟨h1, h2⟩ := List.cons.inj heq
        exact ⟨h1.symm, by omega, h2⟩

theorem containsSeq_iff (hay needle : List Nat) :
    containsSeq hay needle = true ↔ OccursIn hay needle := by
  induction hay with
  | nil =>
    rw [containsSeq]
    simp only [Bool.or_false, leadMatch_iff, OccursIn]
    constructor
    · rintro ⟨hlen, heq⟩
      exact ⟨0, by simpa using hlen, by simpa using heq⟩
    · rintro ⟨i, hlen, heq⟩
      simp only [List.length_nil] at hlen
      refine ⟨by omega, ?_⟩
      simpa [List.drop_nil] using heq
  | cons a t ih =>
    rw [containsSeq]
    simp only [Bool.or_eq_true, leadMatch_iff, ih, OccursIn]
    constructor
    · rintro (⟨hlen, heq⟩ | ⟨i, hlen, heq⟩)
      · exact ⟨0, by simpa using hlen, by simpa using heq⟩
      · exact ⟨i + 1, by simpa [Nat.succ_le_succ_iff] using by omega, by simpa using heq⟩
    · rintro ⟨i, hlen, heq⟩
      cases i with
      | zero => exact Or.inl ⟨by simpa using hlen, by simpa using heq⟩
      | succ j =>
        refine Or.inr ⟨j, ?_, ?_⟩
        · simp only [List.length_cons] at hlen; omega
        · simpa using heq

/-! ## El Torito detection (SmartAnalyzer::checkElTorito, part_008 lines 94-110) -/

/-- ASCII bytes of "EL TORITO". -/
def elToritoSig : List Nat := [69, 76, 32, 84, 79, 82, 73, 84, 79]

/-- ASCII bytes of "BOOT CATALOG". -/
def bootCatalogSig : List Nat := [66, 79, 79, 84, 32, 67, 65, 84, 65, 76, 79, 71]

/-- ASCII bytes of "BOOTABLE". -/
def bootableSig : List Nat := [66, 79, 79, 84, 65, 66, 76, 69]

/-- SmartAnalyzer::checkElTorito applied to the 2048-byte buffer read at
offset 34816: returns true when the buffer contains "EL TORITO",
"BOOT CATALOG" or "BOOTABLE". -/
def checkElTorito (content : List Nat) : Bool :=
  containsSeq content elToritoSig || containsSeq content bootCatalogSig ||
    containsSeq content bootableSig

/-- Concrete 2048-byte buffer: "BOOTABLE" followed by 2040 zero bytes. -/
def elToritoCexBuf : List Nat := bootableSig ++ List.replicate 2040 0

/-! ## Device-path validation (src/main.cpp lines 150-164 and 310-318) -/

/-- Decimal-digit test used by main.cpp (lastChar >= '0' && lastChar <= '9'). -/
def isDigitChar (c : Char) : Bool := decide ('0' ≤ c) && decide (c ≤ '9')

/-- isPartitionDevice (src/main.cpp lines 150-156): true when the path is
non-empty and its last character is a decimal digit. -/
def isPartitionDevice (device : List Char) : Bool :=
  match device.getLast? with
  | none => false
  | some c => isDigitChar c

/-- Helper for getBaseDevice: drop leading digits of the reversed path. -/
def stripLeadingDigits : List Char → List Char
  | [] => []
  | c :: cs => if isDigitChar c then stripLeadingDigits cs else c :: cs

/-- getBaseDevice (src/main.cpp lines 158-164): the while loop pops trailing
decimal digits off the path, i.e. strips the digit run at the end. -/
def getBaseDevice (device : List Char) : List Char :=
  (stripLeadingDigits device.reverse).reverse

/-- The device gate at the top of main (src/main.cpp lines 310-318): when the
path ends in a digit the run exits with code 1 before any write, suggesting
the base device; otherwise the path is accepted. -/
def mainDeviceGate (device : List Char) : Option (List Char) :=
  if isPartitionDevice device then some (getBaseDevice device) else none

/-! ## Persistence space arithmetic (src/lib/persistence.cpp lines 62-110) -/

/-- Bytes per MiB. -/
def MiB : Nat := 1024 * 1024

/-- Unsigned 64-bit wrap-around subtraction, the semantics of size_t
subtraction in the source for operands below 2^64. -/
def sub64 (a b : Nat) : Nat := (a + 2 ^ 64 - b) % 2 ^ 64

/-- Fields of the structured insufficient-space message built by
Persistence::setupPersistence (persistence.cpp lines 82-94). -/
structure InsufficientSpaceInfo where
  deviceMB : Nat
  isoMB : Nat
  requestedMB : Nat
  requiredMB : Nat
  shortageMB : Nat
  availableForPersistence : Nat
  tooSmallMsg : Bool
deriving DecidableEq, Repr

/-- Errors that the space-check portion of Persistence::setupPersistence can
throw: the structured insufficient-space FilesystemError, or the second
FilesystemError raised when the 512 MiB minimum does not fit. -/
inductive PersistSetupError where
  | insufficient (info : InsufficientSpaceInfo)
  | minTooSmall
deriving DecidableEq, Repr

/-- The space-check prefix of Persistence::setupPersistence
(persistence.cpp lines 62-110): computes the MiB figures, refuses with the
structured error when the total does not fit, and otherwise raises a
requested size below 512 MiB to the 512 MiB minimum (re-checking the fit).
Returns the adjusted persistence size on success. -/
def setupPersistenceSpaceCheck (isoSize deviceSize persistenceSizeMB : Nat) :
    Except PersistSetupError Nat :=
  let isoSizeMB := isoSize / MiB + 200
  let deviceSizeMB := deviceSize / MiB
  let overheadMB := 100
  let totalRequired := isoSizeMB + persistenceSizeMB + overheadMB
  if deviceSizeMB < totalRequired then
    let avail := sub64 (sub64 deviceSizeMB isoSizeMB) overheadMB
    Except.error (PersistSetupError.insufficient
      { deviceMB := deviceSizeMB
        isoMB := isoSizeMB
        requestedMB := persistenceSizeMB
        requiredMB := totalRequired
        shortageMB := totalRequired - deviceSizeMB
        availableForPersistence := avail
        tooSmallMsg := !decide (512 < avail) })
  else
    let freeSpaceAfterISO := sub64 (sub64 deviceSizeMB isoSizeMB) overheadMB
    if persistenceSizeMB < 512 then
      if freeSpaceAfterISO < 512 then Except.error PersistSetupError.minTooSmall
      else Except.ok 512
    else Except.ok persistenceSizeMB

/-- Ceiling division, used to state the spec's formula ceil(isoBytes/MiB). -/
def ceilDiv (a b : Nat) : Nat := (a + b - 1) / b

/-! ## Error routing of main (src/main.cpp lines 402-427 and 449-464) -/

/-- The C++ exception classes of lib/errors.hpp that can escape the pipeline;
all of them derive std::exception via MyISOException. -/
inductive CppError where
  | permissionError
  | deviceError
  | fileError
  | filesystemError
deriving DecidableEq, Repr

/-- Externally visible outcome of the persistence branch of main. -/
inductive MainAction where
  | exitFatal
  | fallbackRun
  | primaryOk
deriving DecidableEq, Repr

/-- The persistence branch of main (main.cpp lines 346-373 and 402-427):
main first runs its own space check (requiredSpace = isoSizeMB +
persistenceSize + 200, with isoSizeMB = isoBytes / MiB) and exits fatally
when it trips; otherwise Persistence::setupPersistence runs, and any
exception it throws — starting with its own stricter space check — is caught
by the catch(std::exception) around it and routed to
PersistenceFallback::setupFallbackPersistence.  The remainder of the
primary pipeline after the space check is abstracted by rest. -/
def mainPersistencePath (isoSize deviceSize persistenceSizeMB : Nat)
    (rest : Except CppError Unit) : MainAction :=
  if deviceSize / MiB < isoSize / MiB + persistenceSizeMB + 200 then
    MainAction.exitFatal
  else
    match setupPersistenceSpaceCheck isoSize deviceSize persistenceSizeMB with
    | Except.error _ => MainAction.fallbackRun
    | Except.ok _ =>
      match rest with
      | Except.error _ => MainAction.fallbackRun
      | Except.ok _ => MainAction.primaryOk

/-- The outer catch blocks of main (main.cpp lines 449-464): every error kind
that reaches them ends the process with exit code 1. -/
def mainOuterHandler : CppError → Nat
  | CppError.permissionError => 1
  | CppError.deviceError => 1
  | CppError.fileError => 1
  | CppError.filesystemError => 1

/-! ## Byte streamer (src/lib/iso_burner.cpp lines 75-209)

The source file as read from the image and the device byte map are explicit;
the return values of the read / write / sendfile system calls are supplied
by schedules (arbitrary functions), clamped to the legal POSIX range for a
successful call: a read returns between 1 and min(BUFFER_SIZE, remaining)
bytes while data remains, a write returns between 1 and the requested count.
The loops are given fuel one larger than the source length; since every
iteration transfers at least one byte this fuel is never exhausted, which
the correctness theorems prove. -/

/-- The 4 MiB aligned buffer size of burnRawMode. -/
def RAW_BUFFER_SIZE : Nat := 4 * 1024 * 1024

/-- The 16 MiB sendfile chunk size of burnFastMode. -/
def FAST_CHUNK_SIZE : Nat := 16 * 1024 * 1024

/-- The inner short-write loop of burnRawMode (iso_burner.cpp lines 110-124):
write the chunk at the current device position, advancing by the scheduled
(clamped) return value of each write call.  Returns the updated device map,
the next write-schedule index and the position after the chunk; none models
fuel exhaustion and never occurs with adequate fuel. -/
def writeLoop (w : Nat → Nat) :
    Nat → Nat → List Nat → (Nat → Nat) → Nat → Option ((Nat → Nat) × Nat × Nat)
  | _, j, [], dev, pos => some (dev, j, pos)
  | 0, _, _ :: _, _, _ => none
  | fuel + 1, j, c :: rest, dev, pos =>
    let chunk := c :: rest
    let n := min (max (w j) 1) chunk.length
    writeLoop w fuel (j + 1) (chunk.drop n) (ovw dev pos (chunk.take n)) (pos + n)

/-- The outer read loop of burnRawMode (iso_burner.cpp lines 107-128): read a
chunk of at most BUFFER_SIZE bytes (the scheduled, clamped read return),
write it fully through writeLoop, and continue until the source is
exhausted.  Returns the device map and the total number of bytes written. -/
def readLoop (r w : Nat → Nat) :
    Nat → Nat → Nat → List Nat → (Nat → Nat) → Nat → Option ((Nat → Nat) × Nat)
  | _, _, _, [], dev, pos => some (dev, pos)
  | 0, _, _, _ :: _, _, _ => none
  | fuel + 1, k, j, c :: rest, dev, pos =>
    let src := c :: rest
    let n := min (max (r k) 1) (min RAW_BUFFER_SIZE src.length)
    match writeLoop w (src.take n).length j (src.take n) dev pos with
    | none => none
    | some (dev2, j2, pos2) => readLoop r w fuel (k + 1) j2 (src.drop n) dev2 pos2

/-- ISOBurner::burnRawMode (iso_burner.cpp lines 75-148) as a device-map
transformer: the whole source is streamed to the device from byte 0,
looping over short reads and short writes. -/
def burnRawMode (r w : Nat → Nat) (src : List Nat) (dev : Nat → Nat) :
    Option ((Nat → Nat) × Nat) :=
  readLoop r w (src.length + 1) 0 0 src dev 0

/-- Scheduled outcome of one sendfile call in burnFastMode. -/
inductive SendStep where
  | sent (n : Nat)
  | errUnsupported
  | errOther
deriving DecidableEq, Repr

/-- The sendfile loop of burnFastMode (iso_burner.cpp lines 170-191):
each successful call transfers a clamped positive count at the current
offset; a failure with EINVAL/ENOSYS closes both descriptors and restarts
the whole transfer through burnRawMode from byte 0; any other failure
aborts (none, modelling the thrown DeviceError). -/
def fastLoop (s : Nat → SendStep) (r w : Nat → Nat) (src : List Nat) :
    Nat → Nat → (Nat → Nat) → Nat → Option ((Nat → Nat) × Nat)
  | 0, _, dev, written =>
    if src.length ≤ written then some (dev, written) else none
  | fuel + 1, k, dev, written =>
    if src.length ≤ written then some (dev, written)
    else
      match s k with
      | SendStep.sent n =>
        let n2 := min (max n 1) (min FAST_CHUNK_SIZE (src.length - written))
        fastLoop s r w src fuel (k + 1)
          (ovw dev written ((src.drop written).take n2)) (written + n2)
      | SendStep.errUnsupported => burnRawMode r w src dev
      | SendStep.errOther => none

/-- ISOBurner::burnFastMode (iso_burner.cpp lines 150-209) as a device-map
transformer driven by a sendfile schedule. -/
def burnFastMode (s : Nat → SendStep) (r w : Nat → Nat) (src : List Nat)
    (dev : Nat → Nat) : Option ((Nat → Nat) × Nat) :=
  fastLoop s r w src (src.length + 1) 0 dev 0

theorem getD_take (l : List Nat) : ∀ n m, m < n → (l.take n).getD m 0 = l.getD m 0 := by
  induction l with
  | nil => intro n m _; simp
  | cons a t ih =>
    intro n m hm
    cases n with
    | zero => omega
    | succ n =>
      cases m with
      | zero => simp
      | succ m => simpa using ih n m (by omega)

theorem getD_drop (l : List Nat) : ∀ n m, (l.drop n).getD m 0 = l.getD (n + m) 0 := by
  induction l with
  | nil => intro n m; simp
  | cons a t ih =>
    intro n m
    cases n with
    | zero => simp
    | succ n =>
      have : n + 1 + m = (n + m) + 1 := by omega
      simpa [this] using ih n m

/-- Splicing a chunk written at pos with the rest written at pos + n gives the
lookup profile of the whole list written at pos. -/
theorem splice_lookup (src : List Nat) (n : Nat) (hn : n ≤ src.length)
    (dev dmid dfin : Nat → Nat) (pos : Nat)
    (hmid : ∀ i, dmid i =
      if pos ≤ i ∧ i < pos + n then (src.take n).getD (i - pos) 0 else dev i)
    (hfin : ∀ i, dfin i =
      if pos + n ≤ i ∧ i < pos + n + (src.length - n) then
        (src.drop n).getD (i - (pos + n)) 0 else dmid i) :
    ∀ i, dfin i =
      if pos ≤ i ∧ i < pos + src.length then src.getD (i - pos) 0 else dev i := by
  intro i
  rw [hfin, hmid]
  rcases Nat.lt_or_ge i pos with hlo | hlo
  · rw [if_neg (by omega), if_neg (by omega), if_neg (by omega)]
  · rcases Nat.lt_or_ge i (pos + n) with hmidr | hmidr
    · rw [if_neg (by omega), if_pos ⟨hlo, hmidr⟩, if_pos ⟨hlo, by omega⟩]
      exact getD_take src n (i - pos) (by omega)
    · rcases Nat.lt_or_ge i (pos + src.length) with hhi | hhi
      · rw [if_pos ⟨hmidr, by omega⟩, if_pos ⟨hlo, hhi⟩]
        rw [getD_drop]
        congr 1
        omega
      · rw [if_neg (by omega), if_neg (by omega), if_neg (by omega)]

theorem lookup_nil (dev : Nat → Nat) (pos i : Nat) :
    dev i = if pos ≤ i ∧ i < pos + ([] : List Nat).length then
      ([] : List Nat).getD (i - pos) 0 else dev i := by
  have hno : ¬ (pos ≤ i ∧ i < pos + ([] : List Nat).length) := by
    simp only [List.length_nil, Nat.add_zero]
    omega
  rw [if_neg hno]

theorem writeLoop_spec (w : Nat → Nat) :
    ∀ fuel j (chunk : List Nat) dev pos, chunk.length ≤ fuel →
      ∃ d2 j2, writeLoop w fuel j chunk dev pos = some (d2, j2, pos + chunk.length) ∧
        ∀ i, d2 i =
          if pos ≤ i ∧ i < pos + chunk.length then chunk.getD (i - pos) 0 else dev i := by
  intro fuel
  induction fuel with
  | zero =>
    intro j chunk dev pos hlen
    have : chunk = [] := List.length_eq_zero.mp (by omega)
    subst this
    exact ⟨dev, j, by simp [writeLoop], fun i => lookup_nil dev pos i⟩
  | succ fuel ih =>
    intro j chunk dev pos hlen
    match chunk with
    | [] => exact ⟨dev, j, by simp [writeLoop], fun i => lookup_nil dev pos i⟩
    | c :: rest =>
      rw [writeLoop]
      set chunk := c :: rest with hchunk
      set n := min (max (w j) 1) chunk.length with hn
      have hn1 : 1 ≤ n := by
        rw [hn]
        refine Nat.le_min.mpr ⟨Nat.le_max_right _ 1, ?_⟩
        rw [hchunk]
        simp
      have hnle : n ≤ chunk.length := Nat.min_le_right _ _
      have hrec : (chunk.drop n).length ≤ fuel := by
        rw [List.length_drop]
        have hcl : chunk.length = rest.length + 1 := by rw [hchunk]; simp
        omega
      obtain ⟨d2, j2, hres, hlook⟩ := ih (j + 1) (chunk.drop n) (ovw dev pos (chunk.take n)) (pos + n) hrec
      refine ⟨d2, j2, ?_, ?_⟩
      · have hplus : pos + n + (chunk.drop n).length = pos + chunk.length := by
          rw [List.length_drop]
          omega
        rw [hres, hplus]
      · have hmid : ∀ i, ovw dev pos (chunk.take n) i =
            if pos ≤ i ∧ i < pos + n then (chunk.take n).getD (i - pos) 0 else dev i := by
          intro i
          simp only [ovw, List.length_take]
          rw [Nat.min_eq_left hnle]
        have hfin : ∀ i, d2 i =
            if pos + n ≤ i ∧ i < pos + n + (chunk.length - n) then
              (chunk.drop n).getD (i - (pos + n)) 0
            else ovw dev pos (chunk.take n) i := by
          intro i
          rw [hlook i]
          congr 2
          simp [List.length_drop]
        exact splice_lookup chunk n hnle dev _ d2 pos hmid hfin

theorem readLoop_spec (r w : Nat → Nat) :
    ∀ fuel k j (src : List Nat) dev pos, src.length ≤ fuel →
      ∃ d2, readLoop r w fuel k j src dev pos = some (d2, pos + src.length) ∧
        ∀ i, d2 i =
          if pos ≤ i ∧ i < pos + src.length then src.getD (i - pos) 0 else dev i := by
  intro fuel
  induction fuel with
  | zero =>
    intro k j src dev pos hlen
    have : src = [] := List.length_eq_zero.mp (by omega)
    subst this
    exact ⟨dev, by simp [readLoop], fun i => lookup_nil dev pos i⟩
  | succ fuel ih =>
    intro k j src dev pos hlen
    match src with
    | [] => exact ⟨dev, by simp [readLoop], fun i => lookup_nil dev pos i⟩
    | c :: rest =>
      rw [readLoop]
      set src := c :: rest with hsrc
      set n := min (max (r k) 1) (min RAW_BUFFER_SIZE src.length) with hn
      have hn1 : 1 ≤ n := by
        rw [hn]
        refine Nat.le_min.mpr ⟨Nat.le_max_right _ 1, Nat.le_min.mpr ⟨?_, ?_⟩⟩
        · norm_num [RAW_BUFFER_SIZE]
        · rw [hsrc]
          simp
      have hnle : n ≤ src.length := le_trans (Nat.min_le_right _ _) (Nat.min_le_right _ _)
      have htk : (src.take n).length = n := by
        simp [List.length_take, Nat.min_eq_left hnle]
      obtain ⟨dmid, j2, hwres, hwlook⟩ :=
        writeLoop_spec w (src.take n).length j (src.take n) dev pos le_rfl
      rw [hwres]
      have hrec : (src.drop n).length ≤ fuel := by
        simp only [List.length_drop]
        simp only [hsrc, List.length_cons] at hlen ⊢
        omega
      obtain ⟨d2, hres, hlook⟩ := ih (k + 1) j2 (src.drop n) dmid (pos + (src.take n).length) hrec
      refine ⟨d2, ?_, ?_⟩
      · simp only []
        rw [hres]
        congr 2
        simp only [List.length_drop, htk]
        omega
      · rw [htk] at hwlook hlook
        have hfin : ∀ i, d2 i =
            if pos + n ≤ i ∧ i < pos + n + (src.length - n) then
              (src.drop n).getD (i - (pos + n)) 0
            else dmid i := by
          intro i
          rw [hlook i]
          congr 2
          simp [List.length_drop]
        exact splice_lookup src n hnle dev dmid d2 pos hwlook hfin

/-- Raw mode correctness: the burn completes, reports exactly the source
length as the byte count, makes destination bytes 0..len-1 equal to the
source, and leaves all later bytes untouched. -/
theorem burnRawMode_spec (r w : Nat → Nat) (src : List Nat) (dev : Nat → Nat) :
    ∃ d2, burnRawMode r w src dev = some (d2, src.length) ∧
      (∀ i, i < src.length → d2 i = src.getD i 0) ∧
      (∀ i, src.length ≤ i → d2 i = dev i) := by
  obtain ⟨d2, hres, hlook⟩ := readLoop_spec r w (src.length + 1) 0 0 src dev 0 (by omega)
  refine ⟨d2, by simpa [burnRawMode] using hres, ?_, ?_⟩
  · intro i hi
    rw [hlook i, if_pos ⟨Nat.zero_le i, by omega⟩]
    simp
  · intro i hi
    rw [hlook i, if_neg (by omega)]

theorem fastLoop_spec (s : Nat → SendStep) (r w : Nat → Nat) (src : List Nat) :
    ∀ fuel k dev written d2 c,
      fastLoop s r w src fuel k dev written = some (d2, c) →
      ∀ i, i < src.length →
        d2 i = src.getD i 0 ∨ (i < written ∧ d2 i = dev i) := by
  intro fuel
  induction fuel with
  | zero =>
    intro k dev written d2 c hres i hi
    rw [fastLoop] at hres
    by_cases hw : src.length ≤ written
    · rw [if_pos hw] at hres
      obtain ⟨rfl, rfl⟩ : dev = d2 ∧ written = c := by
        cases hres; exact ⟨rfl, rfl⟩
      exact Or.inr ⟨by omega, rfl⟩
    · rw [if_neg hw] at hres
      cases hres
  | succ fuel ih =>
    intro k dev written d2 c hres i hi
    rw [fastLoop] at hres
    by_cases hw : src.length ≤ written
    · rw [if_pos hw] at hres
      obtain ⟨rfl, rfl⟩ : dev = d2 ∧ written = c := by
        cases hres; exact ⟨rfl, rfl⟩
      exact Or.inr ⟨by omega, rfl⟩
    · rw [if_neg hw] at hres
      match hs : s k with
      | SendStep.sent n =>
        rw [hs] at hres
        simp only [] at hres
        set n2 := min (max n 1) (min FAST_CHUNK_SIZE (src.length - written)) with hn2
        have hn21 : 1 ≤ n2 := by
          simp only [hn2, Nat.le_min]
          refine ⟨by omega, by simp [FAST_CHUNK_SIZE], by omega⟩
        have hn2le : n2 ≤ src.length - written :=
          le_trans (Nat.min_le_right _ _) (Nat.min_le_right _ _)
        have := ih (k + 1) (ovw dev written ((src.drop written).take n2)) (written + n2) d2 c hres i hi
        rcases this with h | ⟨hlt, heq⟩
        · exact Or.inl h
        · rcases Nat.lt_or_ge i written with hiw | hiw
          · refine Or.inr ⟨hiw, ?_⟩
            rw [heq]
            apply ovw_out
            intro ⟨h1, _⟩
            omega
          · refine Or.inl ?_
            rw [heq]
            have hlen : ((src.drop written).take n2).length = n2 := by
              simp only [List.length_take, List.length_drop]
              omega
            rw [ovw_in dev written _ i hiw (by rw [hlen]; omega)]
            rw [getD_take _ _ _ (by omega), getD_drop]
            congr 1
            omega
      | SendStep.errUnsupported =>
        rw [hs] at hres
        obtain ⟨dr, hr, hrl, _⟩ := burnRawMode_spec r w src dev
        rw [hr] at hres
        obtain ⟨rfl, rfl⟩ : dr = d2 ∧ src.length = c := by
          cases hres; exact ⟨rfl, rfl⟩
        exact Or.inl (hrl i hi)
      | SendStep.errOther =>
        rw [hs] at hres
        cases hres

/-- Fast mode correctness: whenever burnFastMode completes (in particular
after an EINVAL/ENOSYS fallback to raw mode), destination bytes 0..len-1
equal the source. -/
theorem burnFastMode_spec (s : Nat → SendStep) (r w : Nat → Nat) (src : List Nat)
    (dev : Nat → Nat) (d2 : Nat → Nat) (c : Nat)
    (hres : burnFastMode s r w src dev = some (d2, c)) :
    ∀ i, i < src.length → d2 i = src.getD i 0 := by
  intro i hi
  rcases fastLoop_spec s r w src (src.length + 1) 0 dev 0 d2 c hres i hi with h | ⟨hlt, _⟩
  · exact h
  · omega

/-! ## Bootloader install (src/unnamed/part_009, namespace Bootloader) and the
RawCopy pipeline (src/lib/smart_burner.cpp lines 226-236, iso_burner.cpp
lines 51-73) -/

/-- ASCII bytes of "ISOLINUX". -/
def isolinuxSig : List Nat := [73, 83, 79, 76, 73, 78, 85, 88]

/-- ASCII bytes of "SYSLINUX". -/
def syslinuxSig : List Nat := [83, 89, 83, 76, 73, 78, 85, 88]

/-- ASCII bytes of "GRUB". -/
def grubSig : List Nat := [71, 82, 85, 66]

/-- enum class BootType of bootloader.hpp (ISOLINUX is routed to the
SYSLINUX installer by makeBootable, so two constructors suffice here). -/
inductive BootType where
  | SYSLINUX
  | GRUB
deriving DecidableEq, Repr

/-- BootloaderInstaller::detectBootType (part_009 lines 27-57) applied to the
first min(len, 32768) bytes of the image. -/
def detectBootType (head32k : List Nat) : BootType :=
  if containsSeq head32k isolinuxSig || containsSeq head32k syslinuxSig then
    BootType.SYSLINUX
  else if containsSeq head32k grubSig then
    BootType.GRUB
  else
    BootType.SYSLINUX

/-- BootloaderInstaller::getSyslinuxMBRCode (part_009 lines 206-223): the
57-byte stub copied into a 440-byte zero vector. -/
def getSyslinuxMBRCode : List Nat :=
  [0xFA, 0x31, 0xC0, 0x8E, 0xD8, 0x8E, 0xC0, 0x8E, 0xD0, 0xBC, 0x00, 0x7C,
   0xFB, 0xFC, 0xBF, 0x00, 0x06, 0xB9, 0x00, 0x01, 0xF3, 0xA5, 0xEA, 0x1F,
   0x06, 0x00, 0x00, 0xB4, 0x41, 0xBB, 0xAA, 0x55, 0xCD, 0x13, 0x72, 0x3E,
   0x81, 0xFB, 0x55, 0xAA, 0x75, 0x38, 0x83, 0xE1, 0x01, 0x74, 0x33, 0x66,
   0xA1, 0x10, 0x7C, 0x66, 0x3B, 0x46, 0xF8, 0x0F, 0x82, 0x2A, 0x00]
  ++ List.replicate (440 - 59) 0

/-- BootloaderInstaller::writeSyslinuxMBR (part_009 lines 189-204): overwrite
device bytes 0..439 with the stub vector. -/
def writeSyslinuxMBR (dev : Nat → Nat) : Nat → Nat :=
  ovw dev 0 getSyslinuxMBRCode

/-- BootloaderInstaller::installSyslinux (part_009 lines 102-151) restricted
to its raw-device effect: when mounting partition 1 succeeds it writes the
SYSLINUX MBR stub over bytes 0..439; when the mount fails it returns without
touching the raw device.  The configuration file it creates lives inside the
mounted filesystem and is outside this byte model. -/
def installSyslinux (mountOk : Bool) (dev : Nat → Nat) : Nat → Nat :=
  if mountOk then writeSyslinuxMBR dev else dev

/-- Bootloader::installBootloader (part_009 lines 239-245): detect the boot
type from the first 32 KiB of the image, then run the SYSLINUX installer
(which writes the MBR stub) or the GRUB installer (which writes no MBR). -/
def installBootloader (image : List Nat) (mountOk : Bool) (dev : Nat → Nat) :
    Nat → Nat :=
  match detectBootType (image.take 32768) with
  | BootType.SYSLINUX => installSyslinux mountOk dev
  | BootType.GRUB => dev

/-- DeviceHandler::wipeDevice (part_009 second half, lines 312-367) as a
byte-map transformer: zero the first 10 MiB and, when the device is large
enough to seek there, the last 10 MiB. -/
def wipeDevice (deviceSize : Nat) (dev : Nat → Nat) : Nat → Nat :=
  let headWiped := fun i => if i < 10 * MiB then 0 else dev i
  fun i => if deviceSize ≥ 10 * MiB ∧ deviceSize - 10 * MiB ≤ i ∧ i < deviceSize
    then 0 else headWiped i

/-- ISOBurner::burnISO (iso_burner.cpp lines 51-73) in RAW mode: stream the
image to the device with burnRawMode and, on success, unconditionally run
Bootloader::installBootloader. -/
def burnISO (r w : Nat → Nat) (image : List Nat) (mountOk : Bool)
    (dev : Nat → Nat) : Option (Nat → Nat) :=
  match burnRawMode r w image dev with
  | none => none
  | some (dev2, _) => some (installBootloader image mountOk dev2)

/-- IntelligentBurner::burnRawCopy (smart_burner.cpp lines 226-236) in RAW
mode: unmount (no byte effect), wipe, then burnISO on the whole device. -/
def burnRawCopy (r w : Nat → Nat) (image : List Nat) (mountOk : Bool)
    (deviceSize : Nat) (dev : Nat → Nat) : Option (Nat → Nat) :=
  burnISO r w image mountOk (wipeDevice deviceSize dev)

/-! ## FAT32 formatter (src/lib/fs_creator.cpp lines 46-153) -/

/-- Little-endian serialization of a 32-bit value into four bytes. -/
def u32le (n : Nat) : List Nat :=
  [n % 256, n / 256 % 256, n / 65536 % 256, n / 16777216 % 256]

/-- Fields of struct FAT32BootSector as assigned by
FAT32Creator::writeBootSector (fs_creator.cpp lines 46-99). -/
structure FAT32BootSector where
  jmpBoot : List Nat
  oemName : String
  bytesPerSector : Nat
  sectorsPerCluster : Nat
  reservedSectorCount : Nat
  numFATs : Nat
  rootEntryCount : Nat
  totalSectors16 : Nat
  media : Nat
  FATSize16 : Nat
  sectorsPerTrack : Nat
  numberOfHeads : Nat
  hiddenSectors : Nat
  totalSectors32 : Nat
  FATSize32 : Nat
  extFlags : Nat
  fsVersion : Nat
  rootCluster : Nat
  fsInfo : Nat
  backupBootSector : Nat
  driveNumber : Nat
  bootSignature : Nat
  volumeID : Nat
  volumeLabel : String
  fsType : String
  signature : Nat
deriving DecidableEq, Repr

/-- FAT32Creator::writeBootSector (fs_creator.cpp lines 46-99) as the boot
sector value it serializes; the random volume ID is a parameter.  The
FATSize32 field is the ceiling division
(sectorCount - 32 + (256*8 + 2) - 1) / (256*8 + 2) computed by the source. -/
def mkFAT32BootSector (sectorCount volumeID : Nat) (label : String) :
    FAT32BootSector :=
  { jmpBoot := [0xEB, 0x58, 0x90]
    oemName := "MSWIN4.1"
    bytesPerSector := 512
    sectorsPerCluster := 8
    reservedSectorCount := 32
    numFATs := 2
    rootEntryCount := 0
    totalSectors16 := 0
    media := 0xF8
    FATSize16 := 0
    sectorsPerTrack := 63
    numberOfHeads := 255
    hiddenSectors := 0
    totalSectors32 := sectorCount
    FATSize32 := (sectorCount - 32 + (256 * 8 + 2) - 1) / (256 * 8 + 2)
    extFlags := 0
    fsVersion := 0
    rootCluster := 2
    fsInfo := 1
    backupBootSector := 6
    driveNumber := 0x80
    bootSignature := 0x29
    volumeID := volumeID
    volumeLabel := label
    fsType := "FAT32   "
    signature := 0xAA55 }

/-- The FAT sector count used by FAT32Creator::writeFATs and
FAT32Creator::initializeRootDirectory (fs_creator.cpp lines 121 and 143):
(sectorCount - 32) / 256 + 1.  Note this is a different formula from the
FATSize32 field of the boot sector. -/
def fatSectors (sectorCount : Nat) : Nat := (sectorCount - 32) / 256 + 1

/-- The 512-byte FAT sector written by FAT32Creator::writeFATs: a 128-entry
u32 array with entries [0x0FFFFFF8, 0x0FFFFFFF, 0x0FFFFFFF] then zeros. -/
def fatSectorBytes : List Nat :=
  u32le 0x0FFFFFF8 ++ u32le 0x0FFFFFFF ++ u32le 0x0FFFFFFF ++
    List.replicate 500 0

/-- FAT32Creator::writeFATs (fs_creator.cpp lines 120-140) as a device-map
transformer: the FAT sector at byte offset 32*512 and its duplicate at
(32 + fatSectors)*512. -/
def writeFATs (sectorCount : Nat) (dev : Nat → Nat) : Nat → Nat :=
  ovw (ovw dev (32 * 512) fatSectorBytes)
    ((32 + fatSectors sectorCount) * 512) fatSectorBytes

/-- FAT32Creator::initializeRootDirectory (fs_creator.cpp lines 142-153):
zero 4096 bytes (one cluster) at the data-region start
(32 + 2*fatSectors)*512. -/
def initializeRootDirectory (sectorCount : Nat) (dev : Nat → Nat) : Nat → Nat :=
  fun i => if (32 + 2 * fatSectors sectorCount) * 512 ≤ i ∧
      i < (32 + 2 * fatSectors sectorCount) * 512 + 4096 then 0 else dev i

/-- The FAT-region effect of FAT32Creator::create (fs_creator.cpp lines
21-44): writeFATs then initializeRootDirectory.  The boot-sector and FSInfo
writes land in sectors 0, 1, 6 and 7, below the FAT region. -/
def fat32CreateFATRegion (sectorCount : Nat) (dev : Nat → Nat) : Nat → Nat :=
  initializeRootDirectory sectorCount (writeFATs sectorCount dev)

/-! ## CHS encoding (PartitionTable::calculateCHS, part_008 lines 532-546) -/

/-- PartitionTable::calculateCHS: LBA to packed 3-byte CHS with
sectors-per-track 63, heads 255 and the cylinder clamped to 1023. -/
def calculateCHS (lba : Nat) : Nat × Nat × Nat :=
  let cylinder := lba / (255 * 63)
  let temp := lba % (255 * 63)
  let head := temp / 63
  let sector := temp % 63 + 1
  let cyl := if 1023 < cylinder then 1023 else cylinder
  (head &&& 0xFF, ((cyl >>> 2) &&& 0xC0) ||| (sector &&& 0x3F), cyl &&& 0xFF)

/-- Decoding a packed CHS tuple back to an LBA through the same fixed
geometry, per the spec: cylinder from the top bits of byte 1 and byte 2,
head from byte 0, sector from the low six bits of byte 1, and
LBA = (cyl*255 + head)*63 + (sector - 1). -/
def decodeCHS (chs : Nat × Nat × Nat) : Nat :=
  ((((chs.2.1 &&& 0xC0) <<< 2) ||| chs.2.2) * 255 + chs.1) * 63 +
    ((chs.2.1 &&& 0x3F) - 1)

/-- The largest LBA representable by the packed CHS form (cylinder 1023,
head 254, sector 63), i.e. the clamped maximum of the encoding. -/
def maxCHSLba : Nat := decodeCHS (254, 255, 255)

/-! ## MBR partition-table editing (PartitionTable::addMBRPartition,
part_008 lines 451-496 and 694-739; struct MBR of mbr_gpt.hpp) -/

/-- 32-bit wrap-around, the semantics of uint32_t arithmetic. -/
def u32 (n : Nat) : Nat := n % 2 ^ 32

/-- struct MBRPartitionEntry of mbr_gpt.hpp (16 packed bytes). -/
structure MBRPartitionEntry where
  status : Nat
  firstCHS : Nat × Nat × Nat
  partitionType : Nat
  lastCHS : Nat × Nat × Nat
  firstLBA : Nat
  sectorCount : Nat
deriving DecidableEq, Repr

/-- struct MBR of mbr_gpt.hpp: 440 bytes of boot code, the 4-byte disk
signature at offset 0x1B8, a reserved word, four partition entries and the
0xAA55 signature word. -/
structure MBR where
  bootCode : List Nat
  diskSignature : Nat
  reserved : Nat
  partitions : List MBRPartitionEntry
  signature : Nat
deriving DecidableEq, Repr

/-- The search loop of addMBRPartition (for i in 0..3, first entry with
partitionType == 0x00). -/
def firstFreeIndex : List MBRPartitionEntry → Option Nat
  | [] => none
  | e :: es =>
    if e.partitionType == 0 then some 0
    else (firstFreeIndex es).map (fun n => n + 1)

/-- PartitionTable::addMBRPartition applied to the MBR read back from the
device: find the first entry whose partition type byte is 0x00, populate it
(status from bootable, type, first/last CHS from calculateCHS, LBA and
count), and write the whole record back; none models the thrown
"No free partition slots" DeviceError. -/
def addMBRPartition (m : MBR) (startLBA sectorCount ptype : Nat)
    (bootable : Bool) : Option MBR :=
  match firstFreeIndex m.partitions with
  | none => none
  | some i =>
    some { m with
      partitions := m.partitions.set i
        { status := if bootable then 0x80 else 0x00
          firstCHS := calculateCHS startLBA
          partitionType := ptype
          lastCHS := calculateCHS (u32 (startLBA + sectorCount + (2 ^ 32 - 1)))
          firstLBA := startLBA
          sectorCount := sectorCount } }

/-! ## Claim theorems -/

/-- C1: for every analysed image structure, determineBurnStrategy returns the
first matching row of the spec's decision table: HybridPreserve when Hybrid
with embedded partitions, else MultiPart when multi-boot or more than one
embedded partition, else SmartExtract when UEFI or El Torito, else RawCopy. -/
theorem claim1_strategy_decision_table (s : ISOStructure) :
    determineBurnStrategy s = strategyDecisionTable s := by
  rfl

/-- C2: a completed raw-mode burn writes exactly the source length, looping
over arbitrary short reads and short writes, and leaves destination bytes
0..len-1 equal to the source (bytes beyond len untouched); a completed
fast-mode burn also leaves destination bytes 0..len-1 equal to the source;
and when the first sendfile call reports EINVAL/ENOSYS the transfer is
exactly a raw-mode restart from byte 0. -/
theorem claim2_write_raw_exact (r w : Nat → Nat) (s : Nat → SendStep)
    (src : List Nat) (dev : Nat → Nat) :
    (∃ d2, burnRawMode r w src dev = some (d2, src.length) ∧
      (∀ i, i < src.length → d2 i = src.getD i 0) ∧
      (∀ i, src.length ≤ i → d2 i = dev i)) ∧
    (∀ d2 c, burnFastMode s r w src dev = some (d2, c) →
      ∀ i, i < src.length → d2 i = src.getD i 0) ∧
    (0 < src.length → s 0 = SendStep.errUnsupported →
      burnFastMode s r w src dev = burnRawMode r w src dev) := by
  refine ⟨burnRawMode_spec r w src dev,
    fun d2 c h => burnFastMode_spec s r w src dev d2 c h, ?_⟩
  intro hlen hs
  unfold burnFastMode
  rw [fastLoop, if_neg (by omega), hs]

/-- C2 witness: a fast-mode transfer whose first sendfile call reports
EINVAL/ENOSYS restarts as the raw-mode transfer on a concrete source. -/
theorem claim2_witness :
    burnFastMode (fun _ => SendStep.errUnsupported) (fun _ => 2) (fun _ => 1)
        [5, 6, 7] (fun _ => 9) =
      burnRawMode (fun _ => 2) (fun _ => 1) [5, 6, 7] (fun _ => 9) :=
  (claim2_write_raw_exact (fun _ => 2) (fun _ => 1)
    (fun _ => SendStep.errUnsupported) [5, 6, 7] (fun _ => 9)).2.2
    (by norm_num) rfl

/-- C3: the device gate of main rejects every path ending in a decimal digit
with the digit-stripped suggestion and exit code 1 before any write — with
no nvme/mmc whole-disk exception, although the README documents
/dev/nvme0n1 as a correct whole-disk argument.  Concretely, /dev/nvme0n1 is
refused with the suggestion /dev/nvme0n. -/
theorem claim3_nvme_whole_disk_rejected :
    isPartitionDevice "/dev/nvme0n1".data = true ∧
      mainDeviceGate "/dev/nvme0n1".data = some "/dev/nvme0n".data ∧
      mainDeviceGate "/dev/sdb3".data = some "/dev/sdb".data ∧
      mainDeviceGate "/dev/sdb".data = none := by
  refine ⟨rfl, rfl, rfl, rfl⟩

/-- C4 counterexample: the claim computes requiredMiB with a ceiling division
and predicts the "too small" message exactly when maxPersistence < 512, but
the code uses the floor division and appends the message also at exactly
512.  At isoBytes = 1048577 (one byte over 1 MiB), device 813 MiB, 512 MiB
persistence: the claim formula gives 814 > 813 and demands refusal, yet the
code accepts and proceeds.  At isoBytes = 0, device 812 MiB, 600 MiB
persistence: the refusal carries maxPersistence exactly 512 with the
"too small" message appended, though 512 < 512 fails. -/
theorem claim4_counterexample :
    (ceilDiv 1048577 MiB + 200 + 512 + 100 > (813 * MiB) / MiB ∧
      setupPersistenceSpaceCheck 1048577 (813 * MiB) 512 = Except.ok 512) ∧
    (setupPersistenceSpaceCheck 0 (812 * MiB) 600 =
      Except.error (PersistSetupError.insufficient
        { deviceMB := 812
          isoMB := 200
          requestedMB := 600
          requiredMB := 900
          shortageMB := 88
          availableForPersistence := 512
          tooSmallMsg := true }) ∧
      ¬ ((512 : Nat) < 512)) := by
  refine ⟨⟨by norm_num [ceilDiv, MiB], rfl⟩, rfl, by norm_num⟩

/-- Unsigned wrap-around subtraction agrees with truncated subtraction when
the minuend is below 2^64 and at least the subtrahend. -/
theorem sub64_of_le (a b : Nat) (hba : b ≤ a) (ha : a < 2 ^ 64) :
    sub64 a b = a - b := by
  unfold sub64
  rw [show a + 2 ^ 64 - b = (a - b) + 2 ^ 64 by omega, Nat.add_mod_right]
  exact Nat.mod_eq_of_lt (by omega)

/-- C4 amended: the space check of Persistence::setupPersistence refuses with
the structured insufficient-space error exactly when
floor(isoBytes/MiB) + 300 + persistenceMiB exceeds deviceMiB, carrying the
fields the code builds, with the "too small" message appended exactly when
the available-persistence figure is at most 512; on the accepting side a
request of at least 512 passes through unchanged and a smaller request is
raised to 512, refused only when the 512 minimum does not fit; and (for a
device of size_t range) the available-persistence figure equals
deviceMiB - floor(isoBytes/MiB) - 300 whenever that does not underflow. -/
theorem claim4_amended (isoSize deviceSize p : Nat) (hdev : deviceSize < 2 ^ 64) :
    (deviceSize / MiB < isoSize / MiB + 300 + p →
      setupPersistenceSpaceCheck isoSize deviceSize p =
        Except.error (PersistSetupError.insufficient
          { deviceMB := deviceSize / MiB
            isoMB := isoSize / MiB + 200
            requestedMB := p
            requiredMB := isoSize / MiB + 300 + p
            shortageMB := isoSize / MiB + 300 + p - deviceSize / MiB
            availableForPersistence :=
              sub64 (sub64 (deviceSize / MiB) (isoSize / MiB + 200)) 100
            tooSmallMsg :=
              !decide (512 <
                sub64 (sub64 (deviceSize / MiB) (isoSize / MiB + 200)) 100) })) ∧
    (isoSize / MiB + 300 + p ≤ deviceSize / MiB → 512 ≤ p →
      setupPersistenceSpaceCheck isoSize deviceSize p = Except.ok p) ∧
    (isoSize / MiB + 300 + p ≤ deviceSize / MiB → p < 512 →
      setupPersistenceSpaceCheck isoSize deviceSize p =
        if deviceSize / MiB < isoSize / MiB + 812 then
          Except.error PersistSetupError.minTooSmall
        else Except.ok 512) ∧
    (isoSize / MiB + 300 ≤ deviceSize / MiB →
      sub64 (sub64 (deviceSize / MiB) (isoSize / MiB + 200)) 100 =
        deviceSize / MiB - (isoSize / MiB + 300)) := by
  have hdm : deviceSize / MiB < 2 ^ 64 :=
    lt_of_le_of_lt (Nat.div_le_self _ _) hdev
  have havail : isoSize / MiB + 300 ≤ deviceSize / MiB →
      sub64 (sub64 (deviceSize / MiB) (isoSize / MiB + 200)) 100 =
        deviceSize / MiB - (isoSize / MiB + 300) := by
    intro h1
    have e1 : sub64 (deviceSize / MiB) (isoSize / MiB + 200) =
        deviceSize / MiB - (isoSize / MiB + 200) :=
      sub64_of_le (deviceSize / MiB) (isoSize / MiB + 200) (by omega) hdm
    have e2 : sub64 (deviceSize / MiB - (isoSize / MiB + 200)) 100 =
        deviceSize / MiB - (isoSize / MiB + 200) - 100 :=
      sub64_of_le (deviceSize / MiB - (isoSize / MiB + 200)) 100 (by omega)
        (lt_of_le_of_lt (Nat.sub_le _ _) hdm)
    rw [e1, e2]
    omega
  refine ⟨?_, ?_, ?_, havail⟩
  · intro h
    simp only [setupPersistenceSpaceCheck]
    rw [if_pos (show deviceSize / MiB < isoSize / MiB + 200 + p + 100 by omega)]
    rw [show isoSize / MiB + 200 + p + 100 = isoSize / MiB + 300 + p by omega]
  · intro h1 h2
    simp only [setupPersistenceSpaceCheck]
    rw [if_neg (by omega), if_neg (by omega)]
  · intro h1 h2
    simp only [setupPersistenceSpaceCheck]
    rw [if_neg (by omega), if_pos h2]
    rw [havail (by omega)]
    by_cases hc : deviceSize / MiB < isoSize / MiB + 812
    · rw [if_pos (by omega), if_pos hc]
    · rw [if_neg (by omega), if_neg hc]

/-- C4 witness: a 100 MiB request on an empty image and a 1000 MiB device is
raised to the 512 MiB minimum. -/
theorem claim4_witness :
    setupPersistenceSpaceCheck 0 (1000 * MiB) 100 = Except.ok 512 := by
  have h := (claim4_amended 0 (1000 * MiB) 100
    (by norm_num [MiB])).2.2.1 (by norm_num [MiB]) (by norm_num)
  rw [if_neg (by norm_num [MiB])] at h
  exact h

/-- C5 counterexample: an insufficient-space FilesystemError raised inside
Persistence::setupPersistence (here: 700 MiB image, 1500 MiB device,
512 MiB persistence passes main's own pre-check but fails the stricter
check inside setupPersistence) is caught by the catch(std::exception)
around the persistence call and routed to the file-based fallback instead
of aborting the run, although it is neither a write failure nor a
bootloader-install failure. -/
theorem claim5_counterexample :
    mainPersistencePath (700 * MiB) (1500 * MiB) 512 (Except.ok ()) =
        MainAction.fallbackRun ∧
    setupPersistenceSpaceCheck (700 * MiB) (1500 * MiB) 512 =
      Except.error (PersistSetupError.insufficient
        { deviceMB := 1500
          isoMB := 900
          requestedMB := 512
          requiredMB := 1512
          shortageMB := 12
          availableForPersistence := 500
          tooSmallMsg := true }) ∧
    MainAction.fallbackRun ≠ MainAction.exitFatal := by
  refine ⟨rfl, rfl, by decide⟩

/-- C5 amended: in the persistence branch of main, an error raised before the
setupPersistence call (main's own space pre-check) exits fatally with code
1, while every exception escaping setupPersistence — its space check or any
later stage — triggers the file-based fallback regardless of its kind; all
error kinds reaching the outer catch blocks exit with code 1. -/
theorem claim5_amended (isoSize deviceSize p : Nat) (rest : Except CppError Unit) :
    (deviceSize / MiB < isoSize / MiB + p + 200 →
      mainPersistencePath isoSize deviceSize p rest = MainAction.exitFatal) ∧
    (isoSize / MiB + p + 200 ≤ deviceSize / MiB →
      ∀ e, setupPersistenceSpaceCheck isoSize deviceSize p = Except.error e →
        mainPersistencePath isoSize deviceSize p rest = MainAction.fallbackRun) ∧
    (isoSize / MiB + p + 200 ≤ deviceSize / MiB →
      ∀ n, setupPersistenceSpaceCheck isoSize deviceSize p = Except.ok n →
        ∀ e, rest = Except.error e →
          mainPersistencePath isoSize deviceSize p rest = MainAction.fallbackRun) ∧
    (∀ e : CppError, mainOuterHandler e = 1) := by
  refine ⟨?_, ?_, ?_, ?_⟩
  · intro h
    unfold mainPersistencePath
    rw [if_pos h]
  · intro h e he
    unfold mainPersistencePath
    rw [if_neg (by omega), he]
  · intro h n hn e he
    unfold mainPersistencePath
    rw [if_neg (by omega), hn, he]
  · intro e
    cases e <;> rfl

/-- C5 witness: a device error in the pipeline after a passing space check
triggers the fallback on concrete inputs. -/
theorem claim5_witness :
    mainPersistencePath (700 * MiB) (2000 * MiB) 512
        (Except.error CppError.deviceError) = MainAction.fallbackRun :=
  (claim5_amended (700 * MiB) (2000 * MiB) 512
      (Except.error CppError.deviceError)).2.2.1
    (by norm_num [MiB]) 512 rfl CppError.deviceError rfl

/-- Byte lookup in an optional device result (0 when the burn failed). -/
def devByte (res : Option (Nat → Nat)) (i : Nat) : Nat :=
  match res with
  | none => 0
  | some d => d i

/-- A structure classified Hybrid by the analyser whose embedded-partition
list is empty (an MBR whose only used entry has a zero type byte passes
checkHybridISO but yields no extracted partitions), so the decision chain
reaches RAW_COPY. -/
def hybridNoEmbeddedISO : ISOStructure :=
  { isHybrid := true
    hasElTorito := false
    hasUEFI := false
    hasLegacyBoot := true
    isMultiBoot := false
    requiredPartitions := 1
    isoDataSize := 1024
    bootSectorLocation := 0
    embeddedPartitions := []
    bootType := "Hybrid ISO"
    bootFiles := [] }

/-- C6 counterexample: a Hybrid-classified structure with no extracted
embedded partitions is routed to RAW_COPY, and the RawCopy pipeline on a
concrete 1024-byte image whose first MBR byte is 0x33 ends with device
byte 0 equal to 0xFA — the first byte of the SYSLINUX stub that
burnISO installs unconditionally — not the image's own 0x33. -/
theorem claim6_counterexample :
    determineBurnStrategy hybridNoEmbeddedISO = BurnStrategy.RAW_COPY ∧
    (burnRawCopy (fun _ => RAW_BUFFER_SIZE) (fun _ => RAW_BUFFER_SIZE)
      (0x33 :: List.replicate 1023 0) true (64 * MiB) (fun _ => 0)).isSome = true ∧
    devByte (burnRawCopy (fun _ => RAW_BUFFER_SIZE) (fun _ => RAW_BUFFER_SIZE)
      (0x33 :: List.replicate 1023 0) true (64 * MiB) (fun _ => 0)) 0 = 0xFA ∧
    (0x33 :: List.replicate 1023 0).getD 0 0 = 0x33 ∧
    (0xFA : Nat) ≠ 0x33 := by
  refine ⟨rfl, rfl, rfl, rfl, by norm_num⟩

/-- C6 amended: a RawCopy run streams the image verbatim to the whole device,
but the bootloader-install step is not skipped: burnISO runs it
unconditionally.  Bytes from 440 up to the image length always equal the
image; when the boot type detected from the image is SYSLINUX and the
partition mount succeeds, bytes 0..439 are overwritten with the SYSLINUX
stub (so a Hybrid image's own MBR boot code survives only if the mount
fails or GRUB is detected). -/
theorem claim6_amended (r w : Nat → Nat) (image : List Nat) (mountOk : Bool)
    (deviceSize : Nat) (dev : Nat → Nat) :
    ∃ d2, burnRawCopy r w image mountOk deviceSize dev = some d2 ∧
      (∀ i, 440 ≤ i → i < image.length → d2 i = image.getD i 0) ∧
      (detectBootType (image.take 32768) = BootType.SYSLINUX → mountOk = true →
        ∀ i, i < 440 → d2 i = getSyslinuxMBRCode.getD i 0) ∧
      (mountOk = false → ∀ i, i < 440 → i < image.length → d2 i = image.getD i 0) := by
  obtain ⟨draw, hres, hin, hout⟩ := burnRawMode_spec r w image (wipeDevice deviceSize dev)
  have hstublen : getSyslinuxMBRCode.length = 440 := by decide
  refine ⟨installBootloader image mountOk draw, ?_, ?_, ?_, ?_⟩
  · simp [burnRawCopy, burnISO, hres]
  · intro i h440 hlen
    cases hdt : detectBootType (image.take 32768) with
    | SYSLINUX =>
      cases mountOk with
      | true =>
        have he : installBootloader image true draw = ovw draw 0 getSyslinuxMBRCode := by
          simp [installBootloader, hdt, installSyslinux, writeSyslinuxMBR]
        rw [he, ovw_out _ _ _ _ (by rw [hstublen]; omega)]
        exact hin i hlen
      | false =>
        have he : installBootloader image false draw = draw := by
          simp [installBootloader, hdt, installSyslinux]
        rw [he]
        exact hin i hlen
    | GRUB =>
      have he : installBootloader image mountOk draw = draw := by
        simp [installBootloader, hdt]
      rw [he]
      exact hin i hlen
  · intro hdt hmt i hi
    subst hmt
    have he : installBootloader image true draw = ovw draw 0 getSyslinuxMBRCode := by
      simp [installBootloader, hdt, installSyslinux, writeSyslinuxMBR]
    rw [he, ovw_in _ _ _ _ (by omega) (by rw [hstublen]; omega)]
    simp
  · intro hmf i h440 hlen
    subst hmf
    cases hdt : detectBootType (image.take 32768) with
    | SYSLINUX =>
      have he : installBootloader image false draw = draw := by
        simp [installBootloader, hdt, installSyslinux]
      rw [he]
      exact hin i hlen
    | GRUB =>
      have he : installBootloader image false draw = draw := by
        simp [installBootloader, hdt]
      rw [he]
      exact hin i hlen

/-- C6 witness: on a concrete 600-byte image with no boot signatures
(SYSLINUX is the detection default) and a successful mount, the device ends
with the stub byte 0xFA at offset 0 and the image byte 7 at offset 500. -/
theorem claim6_witness :
    ∃ d2, burnRawCopy (fun _ => RAW_BUFFER_SIZE) (fun _ => RAW_BUFFER_SIZE)
        (List.replicate 600 7) true (64 * MiB) (fun _ => 0) = some d2 ∧
      d2 0 = 0xFA ∧ d2 500 = 7 := by
  obtain ⟨d2, hres, h1, h2, h3⟩ := claim6_amended (fun _ => RAW_BUFFER_SIZE)
    (fun _ => RAW_BUFFER_SIZE) (List.replicate 600 7) true (64 * MiB) (fun _ => 0)
  refine ⟨d2, hres, ?_, ?_⟩
  · have := h2 (by decide) rfl 0 (by norm_num)
    simpa using this
  · have := h1 500 (by norm_num) (by simp)
    simpa using this

/-- C7 counterexample: on a 2082-sector device the boot-sector field
FAT_size_32 is 1 (ceiling over 2050), but writeFATs places the duplicate
FAT using its own count (2050/256 + 1 = 9): after formatting, the first
byte of sector 33 = 32 + FAT_size_32 is still 0, while the duplicate FAT
actually sits at sector 41 with first byte 0xF8. -/
theorem claim7_counterexample :
    (mkFAT32BootSector 2082 0 "MYISO").FATSize32 = 1 ∧
    fatSectors 2082 = 9 ∧
    fat32CreateFATRegion 2082 (fun _ => 0)
      ((32 + (mkFAT32BootSector 2082 0 "MYISO").FATSize32) * 512) = 0 ∧
    fat32CreateFATRegion 2082 (fun _ => 0) ((32 + 9) * 512) = 0xF8 ∧
    (0 : Nat) ≠ 0xF8 := by
  refine ⟨rfl, rfl, rfl, rfl, by norm_num⟩

/-- C7 amended: the FAT32 formatter writes a boot sector whose FAT_size_32
field is ceil((device_sectors - 32) / (256*8 + 2)); it writes the first FAT
sector at sector 32 with entries [0x0FFFFFF8, 0x0FFFFFFF, 0x0FFFFFFF]
followed by zeros; but the duplicate FAT and the zeroed root-directory
cluster are placed with the separate count fatSectors =
(device_sectors - 32)/256 + 1: the duplicate at sector 32 + fatSectors and
the 4096 zeroed bytes at sector 32 + 2*fatSectors. -/
theorem claim7_amended (sectorCount volumeID : Nat) (label : String)
    (dev : Nat → Nat) :
    (mkFAT32BootSector sectorCount volumeID label).FATSize32 =
        ceilDiv (sectorCount - 32) (256 * 8 + 2) ∧
    (∀ i, i < 512 →
      fat32CreateFATRegion sectorCount dev (32 * 512 + i) = fatSectorBytes.getD i 0) ∧
    (∀ i, i < 512 →
      fat32CreateFATRegion sectorCount dev ((32 + fatSectors sectorCount) * 512 + i) =
        fatSectorBytes.getD i 0) ∧
    (∀ i, i < 4096 →
      fat32CreateFATRegion sectorCount dev
        ((32 + 2 * fatSectors sectorCount) * 512 + i) = 0) ∧
    (fatSectorBytes.take 12 =
      u32le 0x0FFFFFF8 ++ u32le 0x0FFFFFFF ++ u32le 0x0FFFFFFF) ∧
    (∀ i, i < 512 → 12 ≤ i → fatSectorBytes.getD i 0 = 0) := by
  have hfs1 : 1 ≤ fatSectors sectorCount := by
    unfold fatSectors
    omega
  have hfblen : fatSectorBytes.length = 512 := by decide
  refine ⟨rfl, ?_, ?_, ?_, by decide, ?_⟩
  · intro i hi
    unfold fat32CreateFATRegion initializeRootDirectory writeFATs
    rw [if_neg (by omega),
      ovw_out _ _ _ _ (by rw [hfblen]; omega),
      ovw_in _ _ _ _ (by omega) (by rw [hfblen]; omega)]
    rw [show 32 * 512 + i - 32 * 512 = i from by omega]
  · intro i hi
    unfold fat32CreateFATRegion initializeRootDirectory writeFATs
    rw [if_neg (by omega),
      ovw_in _ _ _ _ (by omega) (by rw [hfblen]; omega)]
    rw [show (32 + fatSectors sectorCount) * 512 + i -
      (32 + fatSectors sectorCount) * 512 = i from by omega]
  · intro i hi
    unfold fat32CreateFATRegion initializeRootDirectory
    rw [if_pos (by omega)]
  · intro i hi h12
    revert h12 hi
    revert i
    decide

/-- C7 witness: on a 4096-sector device (fatSectors = 16) the duplicate FAT's
first byte sits at sector 48 and equals 0xF8, per the amended placement. -/
theorem claim7_witness :
    fat32CreateFATRegion 4096 (fun _ => 0)
      ((32 + fatSectors 4096) * 512 + 0) = fatSectorBytes.getD 0 0 :=
  (claim7_amended 4096 0 "MYISO" (fun _ => 0)).2.2.1 0 (by norm_num)

/-! ## CHS bit-packing facts, each checked over all relevant small values -/

theorem chs_shift_mask : ∀ c, c < 1024 → (c >>> 2) &&& 0xC0 = 64 * (c / 256) := by
  decide

theorem chs_or_mask_hi : ∀ k, k < 4 → ∀ s, s < 64 →
    ((64 * k) ||| s) &&& 0xC0 = 64 * k := by
  decide

theorem chs_or_mask_lo : ∀ k, k < 4 → ∀ s, s < 64 →
    ((64 * k) ||| s) &&& 0x3F = s := by
  decide

theorem chs_shl_or : ∀ k, k < 4 → ∀ r, r < 256 →
    ((64 * k) <<< 2) ||| r = 256 * k + r := by
  decide

theorem chs_and_255 : ∀ x, x < 1024 → x &&& 0xFF = x % 256 := by
  decide

theorem chs_and_63 : ∀ s, s < 64 → s &&& 0x3F = s := by
  decide

/-- C8 counterexample: at L = 16450560 (= 1024 cylinders exactly) the
encode-decode round trip gives 16434495 — the cylinder is clamped while
head and sector stay at their true values — whereas min(L, maximum
representable LBA) = 16450559. -/
theorem claim8_counterexample :
    decodeCHS (calculateCHS 16450560) = 16434495 ∧
    min 16450560 maxCHSLba = 16450559 ∧
    (16434495 : Nat) ≠ 16450559 := by
  refine ⟨by decide, by decide, by norm_num⟩

/-- C8 amended: for every 32-bit LBA, decoding the packed CHS tuple through
the same fixed geometry reproduces the LBA with only its cylinder component
clamped to 1023: decode(encode L) = min(L / 16065, 1023) * 16065 + L % 16065
(which equals L exactly when L < 16450560). -/
theorem claim8_amended (L : Nat) (hL : L < 2 ^ 32) :
    decodeCHS (calculateCHS L) =
      min (L / (255 * 63)) 1023 * (255 * 63) + L % (255 * 63) := by
  have h63 : (0 : Nat) < 63 := by norm_num
  have htemp : L % (255 * 63) < 255 * 63 := Nat.mod_lt _ (by norm_num)
  set t := L % (255 * 63) with ht
  have hhead : t / 63 ≤ 254 := by omega
  have hsec1 : 1 ≤ t % 63 + 1 := by omega
  have hsec63 : t % 63 + 1 ≤ 63 := by
    have := Nat.mod_lt t h63
    omega
  set cyl0 := L / (255 * 63) with hcyl0
  set c := if 1023 < cyl0 then 1023 else cyl0 with hc
  have hc1024 : c < 1024 := by
    rw [hc]
    split <;> omega
  have hcmin : c = min cyl0 1023 := by
    rw [hc, Nat.min_def]
    split <;> split <;> omega
  have henc : calculateCHS L =
      ((t / 63) &&& 0xFF, ((c >>> 2) &&& 0xC0) ||| ((t % 63 + 1) &&& 0x3F),
        c &&& 0xFF) := by
    rfl
  rw [henc]
  have e1 : (t / 63) &&& 0xFF = t / 63 := by
    rw [chs_and_255 (t / 63) (by omega)]
    omega
  have e2 : (t % 63 + 1) &&& 0x3F = t % 63 + 1 := chs_and_63 _ (by omega)
  have e3 : (c >>> 2) &&& 0xC0 = 64 * (c / 256) := chs_shift_mask c hc1024
  have e4 : c &&& 0xFF = c % 256 := chs_and_255 c hc1024
  rw [e1, e2, e3, e4]
  simp only [decodeCHS]
  have hk4 : c / 256 < 4 := by omega
  have e5 : ((64 * (c / 256)) ||| (t % 63 + 1)) &&& 0xC0 = 64 * (c / 256) :=
    chs_or_mask_hi _ hk4 _ (by omega)
  have e6 : ((64 * (c / 256)) ||| (t % 63 + 1)) &&& 0x3F = t % 63 + 1 :=
    chs_or_mask_lo _ hk4 _ (by omega)
  rw [e5, e6]
  have e7 : ((64 * (c / 256)) <<< 2) ||| (c % 256) = 256 * (c / 256) + c % 256 :=
    chs_shl_or _ hk4 _ (Nat.mod_lt _ (by norm_num))
  rw [e7]
  have e8 : 256 * (c / 256) + c % 256 = c := Nat.div_add_mod c 256
  rw [e8, ← hcmin]
  have e9 : t = 63 * (t / 63) + t % 63 := (Nat.div_add_mod t 63).symm
  omega

/-- C8 witness: the round trip at the small LBA 3 returns 3. -/
theorem claim8_witness :
    decodeCHS (calculateCHS 3) =
      min (3 / (255 * 63)) 1023 * (255 * 63) + 3 % (255 * 63) :=
  claim8_amended 3 (by norm_num)

theorem getD_replicate_zero : ∀ n m : Nat, (List.replicate n (0 : Nat)).getD m 0 = 0 := by
  intro n
  induction n with
  | zero => intro m; simp
  | succ n ih =>
    intro m
    cases m with
    | zero => simp [List.replicate]
    | succ m => simpa [List.replicate] using ih m

/-- Byte profile of the concrete buffer: the eight "BOOTABLE" bytes, then
zeros. -/
theorem elToritoCexBuf_getD (j : Nat) :
    elToritoCexBuf.getD j 0 = if j < 8 then bootableSig.getD j 0 else 0 := by
  have hblen : bootableSig.length = 8 := by decide
  by_cases hj : j < 8
  · rw [if_pos hj]
    unfold elToritoCexBuf
    exact List.getD_append _ _ 0 j (by omega)
  · rw [if_neg hj]
    unfold elToritoCexBuf
    rw [List.getD_append_right _ _ 0 j (by omega), hblen, getD_replicate_zero]

theorem elToritoCexBuf_length : elToritoCexBuf.length = 2048 := by
  simp [elToritoCexBuf, bootableSig]

/-- Occurrence of a needle pins down every byte of the haystack slice. -/
theorem occursIn_getD (hay needle : List Nat) (h : OccursIn hay needle) :
    ∃ i, ∀ k, k < needle.length → needle.getD k 0 = hay.getD (i + k) 0 := by
  obtain ⟨i, _, heq⟩ := h
  refine ⟨i, ?_⟩
  intro k hk
  have hcast := congrArg (fun l => l.getD k 0) heq
  simp only at hcast
  rw [hcast, getD_take _ _ _ hk, getD_drop]

/-- C9 counterexample: a 2048-byte buffer containing "BOOTABLE" but neither
"EL TORITO" nor "BOOT CATALOG" still makes checkElTorito true. -/
theorem claim9_counterexample :
    checkElTorito elToritoCexBuf = true ∧
    elToritoCexBuf.length = 2048 ∧
    ¬ OccursIn elToritoCexBuf elToritoSig ∧
    ¬ OccursIn elToritoCexBuf bootCatalogSig := by
  refine ⟨?_, elToritoCexBuf_length, ?_, ?_⟩
  · have hocc : OccursIn elToritoCexBuf bootableSig := by
      refine ⟨0, ?_, ?_⟩
      · rw [elToritoCexBuf_length]
        norm_num [bootableSig]
      · rw [List.drop_zero]
        exact (List.take_left _ _).symm
    have hcs := (containsSeq_iff elToritoCexBuf bootableSig).mpr hocc
    unfold checkElTorito
    rw [hcs]
    simp
  · intro h
    obtain ⟨i, hk⟩ := occursIn_getD _ _ h
    have h0 := hk 0 (by norm_num [elToritoSig])
    rw [Nat.add_zero, elToritoCexBuf_getD] at h0
    rcases Nat.lt_or_ge i 8 with hi8 | hi8
    · rw [if_pos hi8] at h0
      have h0a : (69 : Nat) = bootableSig.getD i 0 := by
        simpa [elToritoSig] using h0
      have hi7 : i = 7 := by
        clear h0 hk h
        interval_cases i <;> simp [bootableSig] at h0a <;> rfl
      subst hi7
      have h1 := hk 1 (by norm_num [elToritoSig])
      rw [elToritoCexBuf_getD] at h1
      norm_num [elToritoSig] at h1
    · rw [if_neg (by omega)] at h0
      simp [elToritoSig] at h0
  · intro h
    obtain ⟨i, hk⟩ := occursIn_getD _ _ h
    have h0 := hk 0 (by norm_num [bootCatalogSig])
    rw [Nat.add_zero, elToritoCexBuf_getD] at h0
    rcases Nat.lt_or_ge i 8 with hi8 | hi8
    · rw [if_pos hi8] at h0
      have h0a : (66 : Nat) = bootableSig.getD i 0 := by
        simpa [bootCatalogSig] using h0
      interval_cases i
      · have h4 := hk 4 (by norm_num [bootCatalogSig])
        rw [elToritoCexBuf_getD] at h4
        norm_num [bootCatalogSig, bootableSig] at h4
      · simp [bootableSig] at h0a
      · simp [bootableSig] at h0a
      · simp [bootableSig] at h0a
      · simp [bootableSig] at h0a
      · have h1 := hk 1 (by norm_num [bootCatalogSig])
        rw [elToritoCexBuf_getD] at h1
        norm_num [bootCatalogSig, bootableSig] at h1
      · simp [bootableSig] at h0a
      · simp [bootableSig] at h0a
    · rw [if_neg (by omega)] at h0
      simp [bootCatalogSig] at h0

/-- C9 amended: has_el_torito is true exactly when the 2048-byte buffer at
offset 34816 contains "EL TORITO", "BOOT CATALOG" or "BOOTABLE" as a
contiguous byte run. -/
theorem claim9_amended (content : List Nat) :
    checkElTorito content = true ↔
      (OccursIn content elToritoSig ∨ OccursIn content bootCatalogSig ∨
        OccursIn content bootableSig) := by
  unfold checkElTorito
  simp only [Bool.or_eq_true, containsSeq_iff, or_assoc]

theorem firstFreeIndex_spec (l : List MBRPartitionEntry) (i : Nat)
    (h : firstFreeIndex l = some i) :
    (∃ e, l[i]? = some e ∧ e.partitionType = 0) ∧
    (∀ j, j < i → ∀ e, l[j]? = some e → e.partitionType ≠ 0) := by
  induction l generalizing i with
  | nil => simp [firstFreeIndex] at h
  | cons a t ih =>
    rw [firstFreeIndex] at h
    by_cases ha : a.partitionType = 0
    · rw [if_pos (by simpa using ha)] at h
      obtain rfl : (0 : Nat) = i := by
        cases h
        rfl
      exact ⟨⟨a, by simp, ha⟩, fun j hj => by omega⟩
    · rw [if_neg (by simpa using ha)] at h
      cases hft : firstFreeIndex t with
      | none =>
        rw [hft] at h
        simp at h
      | some k =>
        rw [hft] at h
        obtain rfl : k + 1 = i := by
          simpa using h
        obtain ⟨⟨e, he, hep⟩, hbefore⟩ := ih k hft
        refine ⟨⟨e, by simpa using he, hep⟩, ?_⟩
        intro j hj e2 he2
        cases j with
        | zero =>
          obtain rfl : a = e2 := by
            simpa using he2
          exact ha
        | succ j0 =>
          exact hbefore j0 (by omega) e2 (by simpa using he2)

/-- C10: a successful addMBRPartition on an MBR with a free entry modifies
only the first free partition entry: the boot code, disk signature,
reserved word, 0xAA55 signature word and all other partition entries are
written back unchanged, every entry before the chosen one is occupied, the
chosen entry was free, and it now holds exactly the requested values. -/
theorem claim10_add_mbr_frame (m : MBR) (startLBA sectorCount ptype : Nat)
    (bootable : Bool) (i : Nat)
    (hfind : firstFreeIndex m.partitions = some i) :
    ∃ m2, addMBRPartition m startLBA sectorCount ptype bootable = some m2 ∧
      m2.bootCode = m.bootCode ∧
      m2.diskSignature = m.diskSignature ∧
      m2.reserved = m.reserved ∧
      m2.signature = m.signature ∧
      (∀ j, j ≠ i → m2.partitions[j]? = m.partitions[j]?) ∧
      (∃ e, m.partitions[i]? = some e ∧ e.partitionType = 0) ∧
      (∀ j, j < i → ∀ e, m.partitions[j]? = some e → e.partitionType ≠ 0) ∧
      m2.partitions[i]? = some
        { status := if bootable then 0x80 else 0x00
          firstCHS := calculateCHS startLBA
          partitionType := ptype
          lastCHS := calculateCHS (u32 (startLBA + sectorCount + (2 ^ 32 - 1)))
          firstLBA := startLBA
          sectorCount := sectorCount } := by
  obtain ⟨⟨e, he, hep⟩, hbefore⟩ := firstFreeIndex_spec m.partitions i hfind
  have hilen : i < m.partitions.length := by
    rcases List.getElem?_eq_some.mp he with ⟨hlt, _⟩
    exact hlt
  refine ⟨⟨m.bootCode, m.diskSignature, m.reserved,
      m.partitions.set i
        ⟨if bootable then 0x80 else 0x00, calculateCHS startLBA, ptype,
          calculateCHS (u32 (startLBA + sectorCount + (2 ^ 32 - 1))),
          startLBA, sectorCount⟩,
      m.signature⟩,
    ?_, rfl, rfl, rfl, rfl, ?_, ⟨e, he, hep⟩, hbefore, ?_⟩
  · unfold addMBRPartition
    rw [hfind]
  · intro j hj
    exact List.getElem?_set_ne (show i ≠ j from fun hij => hj hij.symm)
  · exact List.getElem?_set_eq_of_lt _ hilen

/-- C10 witness: on a concrete MBR whose first entry is occupied (type 0x0C)
and the rest free, the add lands in entry 1, and boot code, signature and
entry 0 survive unchanged. -/
theorem claim10_witness :
    ∃ m2, addMBRPartition
        { bootCode := List.replicate 440 0x90
          diskSignature := 0x12345678
          reserved := 0
          partitions :=
            [ { status := 0x80, firstCHS := (0, 2, 0), partitionType := 0x0C,
                lastCHS := (0, 2, 0), firstLBA := 2048, sectorCount := 4096 },
              { status := 0, firstCHS := (0, 0, 0), partitionType := 0,
                lastCHS := (0, 0, 0), firstLBA := 0, sectorCount := 0 },
              { status := 0, firstCHS := (0, 0, 0), partitionType := 0,
                lastCHS := (0, 0, 0), firstLBA := 0, sectorCount := 0 },
              { status := 0, firstCHS := (0, 0, 0), partitionType := 0,
                lastCHS := (0, 0, 0), firstLBA := 0, sectorCount := 0 } ]
          signature := 0xAA55 } 8192 2048 0x83 false = some m2 ∧
      m2.signature = 0xAA55 ∧
      m2.bootCode = List.replicate 440 0x90 ∧
      m2.partitions[0]? = some
        { status := 0x80, firstCHS := (0, 2, 0), partitionType := 0x0C,
          lastCHS := (0, 2, 0), firstLBA := 2048, sectorCount := 4096 } := by
  obtain ⟨m2, hres, hb, _, _, hs, hother, _, _, _⟩ :=
    claim10_add_mbr_frame
      { bootCode := List.replicate 440 0x90
        diskSignature := 0x12345678
        reserved := 0
        partitions :=
          [ { status := 0x80, firstCHS := (0, 2, 0), partitionType := 0x0C,
              lastCHS := (0, 2, 0), firstLBA := 2048, sectorCount := 4096 },
            { status := 0, firstCHS := (0, 0, 0), partitionType := 0,
              lastCHS := (0, 0, 0), firstLBA := 0, sectorCount := 0 },
            { status := 0, firstCHS := (0, 0, 0), partitionType := 0,
              lastCHS := (0, 0, 0), firstLBA := 0, sectorCount := 0 },
            { status := 0, firstCHS := (0, 0, 0), partitionType := 0,
              lastCHS := (0, 0, 0), firstLBA := 0, sectorCount := 0 } ]
        signature := 0xAA55 } 8192 2048 0x83 false 1 rfl
  refine ⟨m2, hres, hs, hb, ?_⟩
  rw [hother 0 (by norm_num)]
  rfl
